import Mathlib

/-!
Shallow embedding of the win-ime-switch utility (src/lang.rs, src/win.rs,
src/main.rs) and proofs about its specified behaviour.

Machine integers are modelled as `Nat` with explicit `% 2^w` at the points
where the Rust code casts (`as u32`, `as u64`).  The Windows API and the
filesystem are modelled as explicit oracle/state records; the observable
effects (posted `WM_INPUTLANGCHANGEREQUEST` messages, writes to the state
file, printing the usage text) are threaded through a `World` record.
-/

set_option autoImplicit false

namespace ImeSwitch

/-- Numeric value of a character as a digit in a given radix, following
Rust `char::to_digit(radix)`: `0`-`9` count as themselves, letters count
as 10.. (both cases), and the result must be below the radix. -/
def charDigit? (radix : Nat) (c : Char) : Option Nat :=
  let d : Option Nat :=
    if '0' ≤ c ∧ c ≤ '9' then some (c.toNat - 48)
    else if 'a' ≤ c ∧ c ≤ 'z' then some (c.toNat - 97 + 10)
    else if 'A' ≤ c ∧ c ≤ 'Z' then some (c.toNat - 65 + 10)
    else none
  match d with
  | some v => if v < radix then some v else none
  | none => none

/-- Fold a list of characters into a numeric value, failing on the first
character that is not a digit of the radix. -/
def digitsFold (radix : Nat) (acc : Option Nat) (cs : List Char) : Option Nat :=
  cs.foldl
    (fun a c =>
      match a, charDigit? radix c with
      | some x, some d => some (x * radix + d)
      | _, _ => none)
    acc

/-- Drop one leading `+` sign, as Rust integer parsing does for unsigned
types. -/
def stripPlus (cs : List Char) : List Char :=
  match cs with
  | c :: rest => if c = '+' then rest else c :: rest
  | [] => []

/-- Model of Rust `uN::from_str_radix(s, radix)` (and `s.parse::<uN>()`
for radix 10): an optional `+` sign, then a non-empty run of digits of the
radix; fails when the value reaches `bound` (`2^N`), which matches Rust's
incremental checked arithmetic because the accumulator is monotone. -/
def fromStrRadix (radix bound : Nat) (s : String) : Option Nat :=
  let cs := stripPlus s.data
  if cs = [] then none
  else
    match digitsFold radix (some 0) cs with
    | some v => if v < bound then some v else none
    | none => none

/-- ASCII lowercasing of one character.  Rust `str::to_lowercase` is
Unicode-aware; on the ASCII strings this program compares against it
coincides with ASCII lowercasing, which is what we model. -/
def asciiLowerChar (c : Char) : Char :=
  if 'A' ≤ c ∧ c ≤ 'Z' then Char.ofNat (c.toNat + 32) else c

/-- ASCII lowercasing of a string (model of `s.to_lowercase()`). -/
def asciiLower (s : String) : String :=
  String.mk (s.data.map asciiLowerChar)

/-- Model of `s.strip_prefix("0x")` in `lang.rs`: the prefix is matched
case-sensitively, so an uppercase `0X` does not strip. -/
def strip0x (s : String) : Option String :=
  match s.data with
  | '0' :: 'x' :: rest => some (String.mk rest)
  | _ => none

/-- Error type of `errors.rs` (`ImeError::Unsupported`). -/
inductive ImeError where
  | Unsupported (s : String)
deriving DecidableEq, Repr

/-- The `LangID` enum of `lang.rs`: seven named layouts plus a catch-all
`Other` carrying the raw 32-bit value. -/
inductive LangID where
  | EN
  | ZH
  | Zhtw
  | JA
  | KO
  | FR
  | DE
  | Other (v : Nat)
deriving DecidableEq, Repr

namespace LangID

/-- Numeric identifier of a `LangID` (the discriminant values of the Rust
enum; `Other` carries its value). -/
def id : LangID → Nat
  | .EN => 0x0409
  | .ZH => 0x0804
  | .Zhtw => 0x0404
  | .JA => 0x0411
  | .KO => 0x0412
  | .FR => 0x040C
  | .DE => 0x0407
  | .Other v => v

/-- Model of `impl From<u32> for LangID` in `lang.rs`. -/
def ofU32 (v : Nat) : LangID :=
  if v = 0x0409 then .EN
  else if v = 0x0804 then .ZH
  else if v = 0x0404 then .Zhtw
  else if v = 0x0411 then .JA
  else if v = 0x0412 then .KO
  else if v = 0x040C then .FR
  else if v = 0x0407 then .DE
  else .Other v

theorem id_ofU32 (v : Nat) : (ofU32 v).id = v := by
  unfold ofU32
  split_ifs with h1 h2 h3 h4 h5 h6 h7 <;> simp [id, *]

theorem ofU32_inj {a b : Nat} (h : ofU32 a = ofU32 b) : a = b := by
  have := congrArg id h
  rwa [id_ofU32, id_ofU32] at this

end LangID

/-- The bound `2^32` used by the `u32` parses in `lang.rs`. -/
def u32Bound : Nat := 2 ^ 32

/-- The language-tag table of `TryFrom<&str> for LangID` in `lang.rs`,
in source order (the `"zh" | "zh-cn"` arm contributes two keys). -/
def tagTable : List (String × LangID) :=
  [("en", .EN), ("zh", .ZH), ("zh-cn", .ZH), ("zh-tw", .Zhtw),
   ("ja", .JA), ("jp", .JA), ("ko", .KO), ("fr", .FR), ("de", .DE)]

/-- The hexadecimal fast path of `TryFrom<&str> for LangID`:
`s.strip_prefix("0x")` followed by `u32::from_str_radix(rest, 16)`. -/
def hexAttempt (s : String) : Option Nat :=
  (strip0x s).bind (fun r => fromStrRadix 16 u32Bound r)

/-- Model of `impl TryFrom<&str> for LangID` in `lang.rs`: try the `0x`
hexadecimal path on the original string; otherwise match the lowercased
string against the tag table; otherwise try a decimal `u32` parse of the
original string; otherwise `ImeError::Unsupported`. -/
def langTryFrom (s : String) : Except ImeError LangID :=
  match hexAttempt s with
  | some n => .ok (LangID.ofU32 n)
  | none =>
    match List.lookup (asciiLower s) tagTable with
    | some l => .ok l
    | none =>
      match fromStrRadix 10 u32Bound s with
      | some n => .ok (LangID.ofU32 n)
      | none => .error (.Unsupported s)

/-- Uppercase hexadecimal digit character, as produced by Rust's
`format!("{:X}", _)`. -/
def hexDigitU (d : Nat) : Char :=
  if d < 10 then Char.ofNat (48 + d) else Char.ofNat (55 + d)

/-- Digits of `n` in base 16, most significant first, using uppercase
letters; `hexChars 0 = ['0']`, matching `format!("{:X}", 0)`. -/
def hexChars (n : Nat) : List Char :=
  if n < 16 then [hexDigitU n]
  else hexChars (n / 16) ++ [hexDigitU (n % 16)]
decreasing_by exact Nat.div_lt_self (by omega) (by omega)

/-- Model of `format!("{:X}", v)` for an unsigned value `v`. -/
def toHexUpper (n : Nat) : String :=
  String.mk (hexChars n)

/-- The bound `2^64` used by the `u64` parse in `load_saved_layout`. -/
def u64Bound : Nat := 2 ^ 64

/-- Low 16 bits of a layout handle, as computed by the source:
`(hkl.0 as u32) & 0xFFFF`. -/
def low16 (h : Nat) : Nat := (h % 2 ^ 32) &&& 0xFFFF

/-- Error values produced by the `win.rs` / `main.rs` functions
(`windows::core::Error` is modelled by which construction site produced
it). -/
inductive WinError where
  | win32
  | loadFailed
  | invalidState
  | enumMismatch
  | notFound (lang : LangID)
deriving DecidableEq, Repr

/-- Oracle for the Windows API calls the program makes.  `current` is the
outcome of `get_current_layout` (`none` = no foreground window or an
invalid `HKL`); `layouts` is what `GetKeyboardLayoutList` reports (an
empty list models both the OS-error and the no-layouts case, which the
code treats identically); `fgWindow` is whether `GetForegroundWindow`
succeeds at the switch call sites; `postOk` is whether `PostMessageW`
succeeds. -/
structure OS where
  current : Option Nat
  layouts : List Nat
  fgWindow : Bool
  postOk : Bool
deriving DecidableEq, Repr

/-- Observable state: the persisted state file's content (`none` =
absent/unreadable), the layout handles posted via
`WM_INPUTLANGCHANGEREQUEST`, and whether the usage text was printed. -/
structure World where
  file : Option String
  posted : List Nat
  printedUsage : Bool
deriving DecidableEq, Repr

/-- Model of `InputMethodManager::save_current_layout`: writes
`format!("{:X}", hkl.0 as u64)` to the state file.  The model filesystem
is always writable, so the write succeeds. -/
def save_current_layout (hkl : Nat) (w : World) : Except WinError Unit × World :=
  (.ok (), { w with file := some (toHexUpper (hkl % u64Bound)) })

/-- Model of `InputMethodManager::load_saved_layout`: read the state
file, parse it with `u64::from_str_radix(_, 16)`, and rebuild the handle
(the `as *mut c_void` cast is the identity below `2^64`). -/
def load_saved_layout (w : World) : Except WinError Nat :=
  match w.file with
  | none => .error .loadFailed
  | some data =>
    match fromStrRadix 16 u64Bound data with
    | some v => .ok v
    | none => .error .invalidState

/-- Model of `InputMethodManager::get_current_layout`. -/
def get_current_layout (os : OS) : Except WinError Nat :=
  match os.current with
  | none => .error .win32
  | some h => .ok h

/-- Model of `switch_to_layout` in `win.rs`: check the foreground window,
then post `WM_INPUTLANGCHANGEREQUEST` with the handle. -/
def switch_to_layout (os : OS) (hkl : Nat) (w : World) : Except WinError Unit × World :=
  if os.fgWindow then
    if os.postOk then (.ok (), { w with posted := w.posted ++ [hkl] })
    else (.error .win32, w)
  else (.error .win32, w)

/-- Model of `switch_input_method` in `win.rs` (duplicated in
`main.rs` with the same behaviour): fail if the enumeration is empty,
find the first layout whose converted low 16 bits equal the requested
`LangID`, fail with the not-found error otherwise, then check the
foreground window and post the request.  The second enumeration call of
the source always agrees with the first in this model, so its
`actual_count != layout_count` error never fires. -/
def switch_input_method (os : OS) (lang : LangID) (w : World) : Except WinError Unit × World :=
  if os.layouts.length = 0 then (.error .win32, w)
  else
    match os.layouts.find? (fun hkl => decide (lang = LangID.ofU32 (low16 hkl))) with
    | none => (.error (.notFound lang), w)
    | some hkl =>
      if os.fgWindow then
        if os.postOk then (.ok (), { w with posted := w.posted ++ [hkl] })
        else (.error .win32, w)
      else (.error .win32, w)

/-- Model of `toggle_layout`: query the current layout, load the saved
one, switch to the saved one, then persist the previously current one. -/
def toggle_layout (os : OS) (w : World) : Except WinError Unit × World :=
  match get_current_layout os with
  | .error e => (.error e, w)
  | .ok current =>
    match load_saved_layout w with
    | .error e => (.error e, w)
    | .ok saved =>
      match switch_to_layout os saved w with
      | (.error e, w1) => (.error e, w1)
      | (.ok _, w1) => save_current_layout current w1

/-- Model of `print_langs` in `win.rs`: fails when the enumeration is
empty, otherwise only prints (no writes, no posted messages). -/
def print_langs (os : OS) (w : World) : Except WinError Unit × World :=
  if os.layouts.length = 0 then (.error .win32, w)
  else (.ok (), w)

/-- Model of `main` in `main.rs`.  `args` is the argument list after the
program name (`args.get(1)` in the source is `args.head?` here).  The
manager construction always succeeds; the current layout is queried
before the argument is examined; the dispatcher handles `en`, `zh`,
`--toggle` and `--current`, and every other invocation (including no
argument at all) prints the usage text and returns `Ok(())`. -/
def mainRun (os : OS) (args : List String) (w : World) : Except WinError Unit × World :=
  match get_current_layout os with
  | .error e => (.error e, w)
  | .ok current =>
    match args.head? with
    | none => (.ok (), { w with printedUsage := true })
    | some a =>
      if a = "en" then
        match save_current_layout current w with
        | (.error e, w1) => (.error e, w1)
        | (.ok _, w1) => switch_input_method os .EN w1
      else if a = "zh" then
        match save_current_layout current w with
        | (.error e, w1) => (.error e, w1)
        | (.ok _, w1) => switch_input_method os .ZH w1
      else if a = "--toggle" then toggle_layout os w
      else if a = "--current" then (.ok (), w)
      else (.ok (), { w with printedUsage := true })

theorem charDigit_hexDigitU : ∀ d : Nat, d < 16 → charDigit? 16 (hexDigitU d) = some d := by
  decide

theorem hexDigitU_ne_plus : ∀ d : Nat, d < 16 → hexDigitU d ≠ '+' := by
  decide

theorem hexChars_ne_nil (n : Nat) : hexChars n ≠ [] := by
  rw [hexChars]
  split <;> simp

theorem hexChars_mem (n : Nat) : ∀ c ∈ hexChars n, ∃ d, d < 16 ∧ c = hexDigitU d := by
  induction n using Nat.strong_induction_on with
  | _ n ih =>
    rw [hexChars]
    split
    · intro c hc
      simp only [List.mem_singleton] at hc
      exact ⟨n, by omega, hc⟩
    · intro c hc
      rcases List.mem_append.mp hc with h | h
      · exact ih (n / 16) (Nat.div_lt_self (by omega) (by omega)) c h
      · simp only [List.mem_singleton] at h
        exact ⟨n % 16, Nat.mod_lt _ (by omega), h⟩

theorem stripPlus_hexChars (n : Nat) : stripPlus (hexChars n) = hexChars n := by
  rcases h : hexChars n with _ | ⟨c, rest⟩
  · exact absurd h (hexChars_ne_nil n)
  · have hc : c ∈ hexChars n := by rw [h]; exact List.mem_cons_self _ _
    obtain ⟨d, hd, rfl⟩ := hexChars_mem n c hc
    simp [stripPlus, hexDigitU_ne_plus d hd]

theorem digitsFold_hexChars (n : Nat) :
    ∀ a : Nat, digitsFold 16 (some a) (hexChars n) =
      some (a * 16 ^ (hexChars n).length + n) := by
  induction n using Nat.strong_induction_on with
  | _ n ih =>
    intro a
    rw [hexChars]
    split
    · simp [digitsFold, charDigit_hexDigitU n (by omega)]
    · have hrec := ih (n / 16) (Nat.div_lt_self (by omega) (by omega))
      simp only [digitsFold, List.foldl_append] at *
      rw [hrec a]
      simp only [List.foldl_cons, List.foldl_nil, List.length_append,
        List.length_singleton, charDigit_hexDigitU (n % 16) (Nat.mod_lt _ (by omega))]
      congr 1
      rw [pow_succ]
      have := Nat.div_add_mod n 16
      ring_nf
      omega

theorem fromStrRadix_toHexUpper {n : Nat} (hn : n < u64Bound) :
    fromStrRadix 16 u64Bound (toHexUpper n) = some n := by
  unfold fromStrRadix toHexUpper
  simp only [String.data]
  rw [stripPlus_hexChars]
  rw [if_neg (hexChars_ne_nil n)]
  rw [show digitsFold 16 (some 0) (hexChars n) = some n by
    simpa using digitsFold_hexChars n 0]
  simp [hn]

theorem find_ofU32_eq (v : Nat) (l : List Nat) :
    l.find? (fun hkl => decide (LangID.ofU32 v = LangID.ofU32 (low16 hkl))) =
    l.find? (fun hkl => decide (v = low16 hkl)) := by
  congr 1
  funext hkl
  rw [decide_eq_decide]
  exact ⟨fun h => LangID.ofU32_inj h, fun h => by rw [h]⟩

/-- Case analysis of `toggle_layout`: either every step succeeded and the
final world holds the posted saved handle and the newly persisted current
handle, or some step failed, an error is returned and the world is
completely unchanged. -/
theorem toggle_cases (os : OS) (w : World) :
    (∃ c s, os.current = some c ∧ load_saved_layout w = .ok s ∧
      os.fgWindow = true ∧ os.postOk = true ∧
      toggle_layout os w =
        (.ok (), { w with posted := w.posted ++ [s],
                          file := some (toHexUpper (c % u64Bound)) })) ∨
    ((∃ e, (toggle_layout os w).1 = .error e) ∧ (toggle_layout os w).2 = w) := by
  rcases hc : os.current with _ | c
  · right
    refine ⟨⟨.win32, ?_⟩, ?_⟩ <;>
      simp [toggle_layout, get_current_layout, hc]
  · rcases hl : load_saved_layout w with e | s
    · right
      refine ⟨⟨e, ?_⟩, ?_⟩ <;>
        simp [toggle_layout, get_current_layout, hc, hl]
    · rcases hfg : os.fgWindow with _ | _
      · right
        refine ⟨⟨.win32, ?_⟩, ?_⟩ <;>
          simp [toggle_layout, get_current_layout, hc, hl, switch_to_layout, hfg]
      · rcases hp : os.postOk with _ | _
        · right
          refine ⟨⟨.win32, ?_⟩, ?_⟩ <;>
            simp [toggle_layout, get_current_layout, hc, hl, switch_to_layout, hfg, hp]
        · left
          refine ⟨c, s, rfl, rfl, rfl, rfl, ?_⟩
          simp [toggle_layout, get_current_layout, hc, hl, switch_to_layout, hfg, hp,
            save_current_layout]

/-- Claim C1: in `toggle_layout`, when the current-layout query and the
load of the saved state succeed (and the switch itself goes through), the
layout-change request carries exactly the loaded handle, and the value
persisted afterwards is exactly the handle that was current before the
toggle. -/
theorem c1_toggle_behaviour (os : OS) (w : World) (c s : Nat)
    (hc : os.current = some c) (hc64 : c < u64Bound)
    (hs : load_saved_layout w = .ok s)
    (hfg : os.fgWindow = true) (hp : os.postOk = true) :
    (toggle_layout os w).1 = .ok () ∧
    (toggle_layout os w).2.posted = w.posted ++ [s] ∧
    (toggle_layout os w).2.file = some (toHexUpper c) ∧
    load_saved_layout (toggle_layout os w).2 = .ok c := by
  have hrun : (toggle_layout os w).2.file = some (toHexUpper c) := by
    simp [toggle_layout, get_current_layout, hc, hs, switch_to_layout, hfg, hp,
      save_current_layout, Nat.mod_eq_of_lt hc64]
  refine ⟨?_, ?_, hrun, ?_⟩
  · simp [toggle_layout, get_current_layout, hc, hs, switch_to_layout, hfg, hp,
      save_current_layout]
  · simp [toggle_layout, get_current_layout, hc, hs, switch_to_layout, hfg, hp,
      save_current_layout]
  · simp [load_saved_layout, hrun, fromStrRadix_toHexUpper hc64]

theorem c1_witness :
    (toggle_layout ⟨some 5, [], true, true⟩ ⟨some "A", [2], false⟩).1 = .ok () ∧
    (toggle_layout ⟨some 5, [], true, true⟩ ⟨some "A", [2], false⟩).2.posted = [2] ++ [10] ∧
    (toggle_layout ⟨some 5, [], true, true⟩ ⟨some "A", [2], false⟩).2.file =
      some (toHexUpper 5) ∧
    load_saved_layout (toggle_layout ⟨some 5, [], true, true⟩ ⟨some "A", [2], false⟩).2 =
      .ok 5 :=
  c1_toggle_behaviour ⟨some 5, [], true, true⟩ ⟨some "A", [2], false⟩ 5 10
    rfl (by decide) rfl rfl rfl

/-- Claim C3: `save_current_layout h` followed by `load_saved_layout`
returns `Ok(h)`, and the file content written is the hexadecimal text of
the handle's numeric value. -/
theorem c3_save_load_roundtrip (h : Nat) (hh : h < u64Bound) (w : World) :
    (save_current_layout h w).2.file = some (toHexUpper h) ∧
    load_saved_layout (save_current_layout h w).2 = .ok h := by
  refine ⟨?_, ?_⟩ <;>
    simp [save_current_layout, load_saved_layout, Nat.mod_eq_of_lt hh,
      fromStrRadix_toHexUpper hh]

theorem c3_witness :
    (save_current_layout 26 ⟨none, [], false⟩).2.file = some (toHexUpper 26) ∧
    load_saved_layout (save_current_layout 26 ⟨none, [], false⟩).2 = .ok 26 :=
  c3_save_load_roundtrip 26 (by decide) ⟨none, [], false⟩

/-- Claim C7: the state file is written only after the saved value was
successfully loaded and the switch request issued; if loading the saved
value or issuing the switch fails, `toggle_layout` returns an error and
the persisted state is unchanged. -/
theorem c7_toggle_error_frame (os : OS) (w : World) :
    ((toggle_layout os w).2.file ≠ w.file →
      (toggle_layout os w).1 = .ok () ∧
      ∃ c s, os.current = some c ∧ load_saved_layout w = .ok s ∧
        (toggle_layout os w).2.posted = w.posted ++ [s]) ∧
    ((∃ e, load_saved_layout w = .error e) ∨ os.fgWindow = false ∨ os.postOk = false →
      (∃ e, (toggle_layout os w).1 = .error e) ∧ (toggle_layout os w).2.file = w.file) := by
  rcases toggle_cases os w with ⟨c, s, hc, hl, hfg, hp, heq⟩ | ⟨⟨e, he⟩, hw⟩
  · constructor
    · intro _
      rw [heq]
      exact ⟨rfl, c, s, hc, hl, rfl⟩
    · rintro (⟨e, hes⟩ | hbad | hbad)
      · rw [hl] at hes; cases hes
      · rw [hfg] at hbad; cases hbad
      · rw [hp] at hbad; cases hbad
  · constructor
    · intro hne
      rw [hw] at hne
      exact absurd rfl hne
    · intro _
      exact ⟨⟨e, he⟩, by rw [hw]⟩

theorem c7_witness :
    (∃ e, (toggle_layout ⟨some 5, [], true, true⟩ ⟨none, [], false⟩).1 = .error e) ∧
    (toggle_layout ⟨some 5, [], true, true⟩ ⟨none, [], false⟩).2.file = none :=
  (c7_toggle_error_frame ⟨some 5, [], true, true⟩ ⟨none, [], false⟩).2
    (Or.inl ⟨.loadFailed, rfl⟩)

/-- Claim C4: on a non-empty layout list, `switch_input_method` selects
the first handle whose low 16 bits equal the requested identifier and
posts the switch request with exactly that handle; when no handle
matches it returns the layout-not-found error and posts nothing. -/
theorem c4_switch_selects_first (v : Nat) (os : OS) (w : World)
    (hne : os.layouts ≠ []) (hfg : os.fgWindow = true) (hp : os.postOk = true) :
    (∀ h, os.layouts.find? (fun x => decide (v = low16 x)) = some h →
      switch_input_method os (.ofU32 v) w =
        (.ok (), { w with posted := w.posted ++ [h] })) ∧
    (os.layouts.find? (fun x => decide (v = low16 x)) = none →
      switch_input_method os (.ofU32 v) w = (.error (.notFound (.ofU32 v)), w)) := by
  have hlen : ¬ os.layouts.length = 0 := by
    simpa [List.length_eq_zero] using hne
  constructor
  · intro h hfind
    unfold switch_input_method
    rw [if_neg hlen, find_ofU32_eq, hfind]
    simp [hfg, hp]
  · intro hfind
    unfold switch_input_method
    rw [if_neg hlen, find_ofU32_eq, hfind]

theorem c4_witness :
    switch_input_method ⟨some 1, [0x04090409, 0x08040804], true, true⟩
        (.ofU32 0x0804) ⟨none, [], false⟩ =
      (.ok (), { file := none, posted := [] ++ [0x08040804], printedUsage := false }) ∧
    switch_input_method ⟨some 1, [0x04090409, 0x08040804], true, true⟩
        (.ofU32 0x0411) ⟨none, [], false⟩ =
      (.error (.notFound (.ofU32 0x0411)), ⟨none, [], false⟩) :=
  ⟨(c4_switch_selects_first 0x0804 ⟨some 1, [0x04090409, 0x08040804], true, true⟩
      ⟨none, [], false⟩ (by decide) rfl rfl).1 0x08040804 (by decide),
   (c4_switch_selects_first 0x0411 ⟨some 1, [0x04090409, 0x08040804], true, true⟩
      ⟨none, [], false⟩ (by decide) rfl rfl).2 (by decide)⟩

/-- Claim C8: an empty layout enumeration is treated as failure:
`switch_input_method` returns an error and posts no switch request, and
`print_langs` returns an error as well. -/
theorem c8_empty_enumeration (cur : Option Nat) (fg post : Bool)
    (lang : LangID) (w : World) :
    switch_input_method ⟨cur, [], fg, post⟩ lang w = (.error .win32, w) ∧
    print_langs ⟨cur, [], fg, post⟩ w = (.error .win32, w) :=
  ⟨rfl, rfl⟩

/-- Claim C9: on a `--current` or `--list` argument the dispatcher never
writes the state file and never posts a layout-change request: the final
file content and posted-message list equal the initial ones, whatever the
OS oracle does (`--list` is not recognised by this dispatcher and lands
in the read-only usage branch). -/
theorem c9_readonly_frame (os : OS) (w : World) (rest : List String) :
    ((mainRun os ("--current" :: rest) w).2.file = w.file ∧
     (mainRun os ("--current" :: rest) w).2.posted = w.posted) ∧
    ((mainRun os ("--list" :: rest) w).2.file = w.file ∧
     (mainRun os ("--list" :: rest) w).2.posted = w.posted) := by
  rcases hc : os.current with _ | c <;>
    simp [mainRun, get_current_layout, hc]

/-- Claim C6 counterexample: with no positional argument but a failing
current-layout query, the program returns the error instead of printing
usage and succeeding — the initial `get_current_layout()?` runs before
the argument match. -/
theorem c6_counterexample :
    (mainRun ⟨none, [0x0409], true, true⟩ [] ⟨none, [], false⟩).1 =
      .error .win32 ∧
    (mainRun ⟨none, [0x0409], true, true⟩ [] ⟨none, [], false⟩).2.printedUsage = false :=
  ⟨rfl, rfl⟩

/-- Claim C6 as amended: provided the initial OS query of the current
layout succeeds, an invocation with no positional argument prints the
usage text, changes nothing else, and returns `Ok(())`. -/
theorem c6_amended_no_arg_usage (os : OS) (w : World) (c : Nat)
    (hc : os.current = some c) :
    mainRun os [] w = (.ok (), { w with printedUsage := true }) := by
  simp [mainRun, get_current_layout, hc]

theorem c6_witness :
    mainRun ⟨some 3, [], false, false⟩ [] ⟨none, [], false⟩ =
      (.ok (), ⟨none, [], true⟩) :=
  c6_amended_no_arg_usage ⟨some 3, [], false, false⟩ ⟨none, [], false⟩ 3 rfl

/-- Claim C2 counterexample: with every OS collaborator succeeding and a
Japanese (0x0411) layout installed, the argument `ja` does not persist
the current layout and does not issue any switch request — it lands in
the usage branch; `--list` likewise prints usage instead of invoking the
listing operation. -/
theorem c2_counterexample :
    (mainRun ⟨some 0x04090409, [0x04090409, 0x04110411], true, true⟩
        ["ja"] ⟨none, [], false⟩).2.posted = [] ∧
    (mainRun ⟨some 0x04090409, [0x04090409, 0x04110411], true, true⟩
        ["ja"] ⟨none, [], false⟩).2.file = none ∧
    (mainRun ⟨some 0x04090409, [0x04090409, 0x04110411], true, true⟩
        ["ja"] ⟨none, [], false⟩).2.printedUsage = true ∧
    (mainRun ⟨some 0x04090409, [0x04090409, 0x04110411], true, true⟩
        ["--list"] ⟨none, [], false⟩).2.printedUsage = true :=
  ⟨rfl, rfl, rfl, rfl⟩

/-- Claim C2 as amended: the dispatcher of `main.rs` recognises exactly
`en`, `zh`, `--toggle` and `--current`.  On `en` (resp. `zh`) it first
persists the current layout and then looks up and switches to the first
handle matching 0x0409 (resp. 0x0804); `--toggle` runs the toggle;
`--current` only prints; every other argument — including `zh-tw`, `ja`,
`jp`, `ko`, `fr`, `de`, hex or decimal codes, and `--list` — prints the
usage text and returns `Ok(())`. -/
theorem c2_amended_dispatch (os : OS) (w : World) (c hEN hZH : Nat)
    (hc : os.current = some c)
    (hfg : os.fgWindow = true) (hp : os.postOk = true)
    (hfindEN : os.layouts.find? (fun x => decide (0x0409 = low16 x)) = some hEN)
    (hfindZH : os.layouts.find? (fun x => decide (0x0804 = low16 x)) = some hZH) :
    ((mainRun os ["en"] w).1 = .ok () ∧
     (mainRun os ["en"] w).2.file = some (toHexUpper (c % u64Bound)) ∧
     (mainRun os ["en"] w).2.posted = w.posted ++ [hEN]) ∧
    ((mainRun os ["zh"] w).1 = .ok () ∧
     (mainRun os ["zh"] w).2.file = some (toHexUpper (c % u64Bound)) ∧
     (mainRun os ["zh"] w).2.posted = w.posted ++ [hZH]) ∧
    mainRun os ["--toggle"] w = toggle_layout os w ∧
    mainRun os ["--current"] w = (.ok (), w) ∧
    (∀ a, a ∉ (["en", "zh", "--toggle", "--current"] : List String) →
      mainRun os [a] w = (.ok (), { w with printedUsage := true })) ∧
    mainRun os [] w = (.ok (), { w with printedUsage := true }) := by
  have hne : os.layouts ≠ [] := by
    intro hnil
    rw [hnil] at hfindEN
    cases hfindEN
  have hlen : ¬ os.layouts.length = 0 := by
    simpa [List.length_eq_zero] using hne
  have hswEN : switch_input_method os .EN { w with file := some (toHexUpper (c % u64Bound)) } =
      (.ok (), { w with file := some (toHexUpper (c % u64Bound)),
                        posted := w.posted ++ [hEN] }) := by
    unfold switch_input_method
    rw [if_neg hlen]
    rw [show (fun hkl => decide (LangID.EN = LangID.ofU32 (low16 hkl))) =
        (fun hkl => decide (LangID.ofU32 0x0409 = LangID.ofU32 (low16 hkl))) from rfl]
    rw [find_ofU32_eq, hfindEN]
    simp [hfg, hp]
  have hswZH : switch_input_method os .ZH { w with file := some (toHexUpper (c % u64Bound)) } =
      (.ok (), { w with file := some (toHexUpper (c % u64Bound)),
                        posted := w.posted ++ [hZH] }) := by
    unfold switch_input_method
    rw [if_neg hlen]
    rw [show (fun hkl => decide (LangID.ZH = LangID.ofU32 (low16 hkl))) =
        (fun hkl => decide (LangID.ofU32 0x0804 = LangID.ofU32 (low16 hkl))) from rfl]
    rw [find_ofU32_eq, hfindZH]
    simp [hfg, hp]
  refine ⟨?_, ?_, ?_, ?_, ?_, ?_⟩
  · simp [mainRun, get_current_layout, hc, save_current_layout, hswEN]
  · simp [mainRun, get_current_layout, hc, save_current_layout, hswZH]
  · simp [mainRun, get_current_layout, hc, toggle_layout]
  · simp [mainRun, get_current_layout, hc]
  · intro a ha
    simp only [List.mem_cons, List.not_mem_nil, or_false, not_or] at ha
    obtain ⟨h1, h2, h3, h4⟩ := ha
    simp [mainRun, get_current_layout, hc, h1, h2, h3, h4]
  · simp [mainRun, get_current_layout, hc]

theorem c2_witness :
    (mainRun ⟨some 7, [0x04090409, 0x08040804], true, true⟩
        ["zh"] ⟨none, [], false⟩).2.posted = [] ++ [0x08040804] ∧
    mainRun ⟨some 7, [0x04090409, 0x08040804], true, true⟩
        ["bogus"] ⟨none, [], false⟩ = (.ok (), ⟨none, [], true⟩) :=
  ⟨(c2_amended_dispatch ⟨some 7, [0x04090409, 0x08040804], true, true⟩
      ⟨none, [], false⟩ 7 0x04090409 0x08040804 rfl rfl rfl
      (by decide) (by decide)).2.1.2.2,
   (c2_amended_dispatch ⟨some 7, [0x04090409, 0x08040804], true, true⟩
      ⟨none, [], false⟩ 7 0x04090409 0x08040804 rfl rfl rfl
      (by decide) (by decide)).2.2.2.2.1 "bogus" (by decide)⟩

/-- Claim C5 counterexample: `zh-cn` is outside the claim's fixed table
and is neither a `0x`-hexadecimal nor a decimal string, so by the claim
it should be rejected as `Unsupported`; the code accepts it as 0x0804. -/
theorem c5_counterexample :
    langTryFrom "zh-cn" = .ok LangID.ZH ∧
    ¬ ("zh-cn" ∈ (["en", "zh", "zh-tw", "ja", "jp", "ko", "fr", "de"] : List String)) ∧
    hexAttempt "zh-cn" = none ∧
    fromStrRadix 10 u32Bound "zh-cn" = none :=
  ⟨rfl, by decide, rfl, rfl⟩

/-- Claim C5 as amended: the fixed table has nine entries — the eight
tags of the claim plus `zh-cn`, which also maps to 0x0804.  Each table
tag parses to its canonical identifier; a string whose `0x`-stripped
remainder parses as hexadecimal `u32` yields that number; a string that
misses the hexadecimal path and the table but parses as decimal `u32`
yields that number; every remaining string is rejected as
`Unsupported`. -/
theorem c5_amended_parse :
    (∀ p ∈ tagTable, langTryFrom p.1 = .ok p.2) ∧
    (∀ s r n, strip0x s = some r → fromStrRadix 16 u32Bound r = some n →
      langTryFrom s = .ok (LangID.ofU32 n)) ∧
    (∀ s n, hexAttempt s = none → List.lookup (asciiLower s) tagTable = none →
      fromStrRadix 10 u32Bound s = some n → langTryFrom s = .ok (LangID.ofU32 n)) ∧
    (∀ s, hexAttempt s = none → List.lookup (asciiLower s) tagTable = none →
      fromStrRadix 10 u32Bound s = none → langTryFrom s = .error (.Unsupported s)) := by
  refine ⟨?_, ?_, ?_, ?_⟩
  · intro p hp
    simp only [tagTable, List.mem_cons, List.not_mem_nil, or_false] at hp
    rcases hp with rfl | rfl | rfl | rfl | rfl | rfl | rfl | rfl | rfl <;> rfl
  · intro s r n h1 h2
    simp [langTryFrom, hexAttempt, h1, h2]
  · intro s n h1 h2 h3
    simp [langTryFrom, h1, h2, h3]
  · intro s h1 h2 h3
    simp [langTryFrom, h1, h2, h3]

theorem c5_witness :
    langTryFrom "0x409" = .ok LangID.EN ∧
    langTryFrom "1033" = .ok LangID.EN ∧
    langTryFrom "hello" = .error (.Unsupported "hello") :=
  ⟨c5_amended_parse.2.1 "0x409" "409" 0x409 rfl rfl,
   c5_amended_parse.2.2.1 "1033" 1033 rfl rfl rfl,
   c5_amended_parse.2.2.2 "hello" rfl rfl rfl⟩

/-- Claim C10: the named tags are matched case-insensitively (the string
is lowercased before the table lookup, so `EN` parses to 0x0409), while
the `0x` prefix is matched case-sensitively on the original string, so
`0X409` does not take the hexadecimal path and is rejected as
`Unsupported`. -/
theorem c10_case_sensitivity :
    langTryFrom "EN" = .ok LangID.EN ∧
    langTryFrom "0X409" = .error (.Unsupported "0X409") ∧
    strip0x "0X409" = none ∧
    (∀ s l, hexAttempt s = none → List.lookup (asciiLower s) tagTable = some l →
      langTryFrom s = .ok l) := by
  refine ⟨rfl, rfl, rfl, ?_⟩
  intro s l h1 h2
  simp [langTryFrom, h1, h2]

theorem c10_witness :
    langTryFrom "ZH-TW" = .ok LangID.Zhtw :=
  c10_case_sensitivity.2.2.2 "ZH-TW" .Zhtw rfl rfl

end ImeSwitch
